import Mathlib

/-!
Verification development for the ae5-tools client library
(src/ae5_tools/api.py and collaborators).

The definitions below are a shallow embedding of the Python source.
Pure functions become Lean functions; the stateful request/authorize
loops become explicit step functions over oracles describing the
responses of the remote platform, with a fuel argument standing in for
the unbounded Python while-loops; a fuel-exhaustion constructor marks
runs that were cut short, and no theorem rests on that constructor.
-/

set_option maxRecDepth 4000

/-! ## Glob matching (Python fnmatch, used by AEUserSession._id)

The Python standard library fnmatch translates a shell-style pattern
into a regular expression: `*` matches any sequence, `?` any single
character, `[seq]` a character class with optional leading `!` for
negation, where a `]` directly after `[` or `[!` is class content and
an unterminated `[` is a literal. On POSIX, normcase is the identity,
so matching is case sensitive. We embed that translation directly as
a total matcher on character lists. -/

/-- Membership of a character in the body of a `[...]` class: `a-b`
denotes a range, a `-` at the start or end is literal. -/
def charInClass : List Char → Char → Bool
  | a :: '-' :: b :: rest, c =>
      (decide (a.toNat ≤ c.toNat) && decide (c.toNat ≤ b.toNat)) || charInClass rest c
  | a :: rest, c => a == c || charInClass rest c
  | [], _ => false

/-- Split the characters following a `[` into (negated, class body,
remainder after the closing `]`); `none` when the class is
unterminated, in which case fnmatch treats the `[` as a literal. -/
def splitClass (s : List Char) : Option (Bool × List Char × List Char) :=
  let (neg, s1) := match s with
    | '!' :: r => (true, r)
    | _ => (false, s)
  let (pre, s2) := match s1 with
    | ']' :: r => ([']'], r)
    | _ => (([] : List Char), s1)
  let (cls, rest) := s2.span (fun c => c ≠ ']')
  match rest with
  | [] => none
  | _ :: r2 => some (neg, pre ++ cls, r2)

/-- One token of a translated glob pattern. -/
inductive GTok where
  | lit (c : Char)
  | any
  | star
  | cls (neg : Bool) (chars : List Char)
deriving DecidableEq, Repr

/-- Tokenizer for glob patterns. The fuel argument is an upper bound
on the number of tokens; each step consumes at least one character, so
fuel equal to the pattern length always suffices. -/
def tokenizeF : Nat → List Char → List GTok
  | 0, _ => []
  | _, [] => []
  | fuel + 1, '*' :: ps => .star :: tokenizeF fuel ps
  | fuel + 1, '?' :: ps => .any :: tokenizeF fuel ps
  | fuel + 1, '[' :: ps =>
      match splitClass ps with
      | some (neg, cls, rest) => .cls neg cls :: tokenizeF fuel rest
      | none => .lit '[' :: tokenizeF fuel ps
  | fuel + 1, p :: ps => .lit p :: tokenizeF fuel ps

def tokenize (pat : List Char) : List GTok := tokenizeF pat.length pat

/-- All suffixes of a list, longest first. -/
def tailsL : List Char → List (List Char)
  | [] => [[]]
  | c :: cs => (c :: cs) :: tailsL cs

/-- Anchored matching of a token list against a character list; `star`
matches when some suffix of the input matches the remaining tokens,
which is the semantics of the greedy `.*` fnmatch translates to. -/
def tokMatch : List GTok → List Char → Bool
  | [], s => s.isEmpty
  | .star :: ts, s => (tailsL s).any (fun t => tokMatch ts t)
  | .any :: ts, s =>
      match s with
      | [] => false
      | _ :: cs => tokMatch ts cs
  | .cls neg cls :: ts, s =>
      match s with
      | [] => false
      | c :: cs => (charInClass cls c != neg) && tokMatch ts cs
  | .lit p :: ts, s =>
      match s with
      | [] => false
      | c :: cs => p == c && tokMatch ts cs

/-- Python fnmatch.fnmatch(name, pat) on POSIX. -/
def fnmatch (name pat : String) : Bool := tokMatch (tokenize pat.data) name.data

example : fnmatch "anything" "*" = true := by decide
example : fnmatch "a1-def" "a0-abc" = false := by decide
example : fnmatch "abc" "a?c" = true := by decide
example : fnmatch "abc" "a[b]c" = true := by decide
example : fnmatch "abc" "a[!b]c" = false := by decide
example : fnmatch "a-c" "a[x-]c" = true := by decide
example : fnmatch "x[y" "x[y" = true := by decide

/-! ## Identifiers, listing records, and AEUserSession._id

api.py imports the Identifier class from the ae5_tools.identifier
module, which is not among the provided sources; only its fields and
the id_type classifier are used by _id. The structured fields follow
the data model of the specification; id_type is modelled from the
specification prefix table. Everything else below is translated from
AEUserSession._id (api.py lines 297-330). -/

/-- Structured identifier (fields per the data model; a missing field
is None in Python, here `none`). -/
structure Ident where
  owner : Option String
  name : Option String
  id : Option String
  pid : Option String
  revision : Option String
deriving DecidableEq, Repr

/-- One listing record as consumed by _id: the fields the match
predicate reads. `project_id` is optional because _id reads it with
rec.get, defaulting to the empty string. -/
structure Rec where
  owner : String
  name : String
  id : String
  project_id : Option String
deriving DecidableEq, Repr

/-- Python truthiness of an optional string: None and the empty string
are falsy. -/
def pyTruthy : Option String → Bool
  | none => false
  | some s => s ≠ ""

/-- Python `x or "*"` on an optional string field. -/
def pyOrStar (o : Option String) : String :=
  match o with
  | none => "*"
  | some s => if s = "" then "*" else s

/-- Prefix test on character lists (String.startsWith). -/
def isPrefixL : List Char → List Char → Bool
  | [], _ => true
  | _ :: _, [] => false
  | c :: cs, d :: ds => c == d && isPrefixL cs ds

/-- Modelled from the spec: `id_type` of the missing Identifier module
classifies an opaque id by its fixed type prefix, a0- for projects,
a1- for sessions, a2- for deployments, without a network call; ids
with an unknown prefix classify outside every listing type. -/
def id_type (s : String) : String :=
  if isPrefixL "a0-".data s.data then "projects"
  else if isPrefixL "a1-".data s.data then "sessions"
  else if isPrefixL "a2-".data s.data then "deployments"
  else "unknown"

/-- Modelled from the spec: the string form of an identifier,
owner/name:revision/id with missing parts elided, as produced by the
missing Identifier module for error messages. -/
def identStr (ident : Ident) : String :=
  let ons := match ident.owner, ident.name with
    | some o, some n => o ++ "/" ++ n
    | some o, none => o
    | none, some n => n
    | none, none => ""
  let ons := match ident.revision with
    | some r => ons ++ ":" ++ r
    | none => ons
  match ident.id with
  | some i => if ons = "" then i else ons ++ "/" ++ i
  | none => ons

/-- Modelled from the spec: Identifier.from_record renders a record as
an owner/name:revision-or-id string for ambiguity messages. -/
def from_record (r : Rec) : String := r.owner ++ "/" ++ r.name ++ ":" ++ r.id

/-- `tval`: jobs and runs are resolved against the deployments id
type (api.py line 300). -/
def tvalOf (ty : String) : String :=
  if ty = "jobs" ∨ ty = "runs" then "deployments" else ty

/-- `idtype` as computed at api.py line 301. -/
def idtypeOf (ty : String) (ident : Ident) : String :=
  if pyTruthy ident.id then id_type (ident.id.getD "") else tvalOf ty

/-- Owner pattern: `ident.owner or "*"` (api.py line 311). -/
def ownerPat (ident : Ident) : String := pyOrStar ident.owner

/-- Name pattern: `ident.name or "*"` (api.py line 311). -/
def namePat (ident : Ident) : String := pyOrStar ident.name

/-- Id pattern: `ident.id if ident.id and tval == idtype else "*"`
(api.py line 312). -/
def idPat (ty : String) (ident : Ident) : String :=
  if pyTruthy ident.id && (tvalOf ty == idtypeOf ty ident) then ident.id.getD "" else "*"

/-- Parent-id pattern: `ident.pid if ident.pid and type != "projects"
else "*"` (api.py line 313). -/
def pidPat (ty : String) (ident : Ident) : String :=
  if pyTruthy ident.pid && (ty != "projects") then ident.pid.getD "" else "*"

/-- The record filter of _id (api.py lines 314-317): four independent
fnmatch tests against the owner, name, id and parent-id patterns, the
missing project_id field defaulting to the empty string. -/
def idMatchPred (ty : String) (ident : Ident) (r : Rec) : Bool :=
  fnmatch r.owner (ownerPat ident) && fnmatch r.name (namePat ident) &&
    fnmatch r.id (idPat ty ident) && fnmatch (r.project_id.getD "") (pidPat ty ident)

/-- Result of _id. `ok` carries the Python pair (rec.id, rec);
`valueError` a raised ValueError with its message; `typeError` the
TypeError raised by subscripting None at `return rec[...], rec`. -/
inductive IdResult where
  | ok (id : String) (rec : Rec)
  | valueError (msg : String)
  | typeError
deriving DecidableEq, Repr

/-- The no-match / multiple-match ValueError message of api.py lines
324-328. -/
def matchFailMsg (ty : String) (ident : Ident) (ms : List Rec) : String :=
  let pfx := if ms.length ≠ 0 then "Multiple" else "No"
  let msg := pfx ++ " " ++ ty ++ " found matching " ++ ownerPat ident ++ "/" ++
    namePat ident ++ "/" ++ idPat ty ident
  if ms.length ≠ 0 then
    msg ++ ":\n  - " ++ String.intercalate "\n  - " (ms.map from_record)
  else msg

/-- AEUserSession._id (api.py lines 297-330) on an already-parsed
identifier. The listing fetched through type_list is passed in as
`records`; the string-parse branch of line 298 is before this point.
Note line 330 returns `rec` subscripted even on the quiet path, where
rec is None. -/
def _id (ty : String) (ident : Ident) (quiet : Bool) (records : List Rec) : IdResult :=
  let idtype := idtypeOf ty ident
  if idtype ≠ "projects" ∧ idtype ≠ tvalOf ty then
    .valueError ("Expected a " ++ ty ++ " ID type, found a " ++ idtype ++ " ID: " ++
      identStr ident)
  else
    match records.filter (idMatchPred ty ident) with
    | [m] => .ok m.id m
    | ms => if quiet then .typeError else .valueError (matchFailMsg ty ident ms)

example :
    _id "sessions" ⟨none, some "demo", none, none, none⟩ true [] = .typeError := by decide
example :
    _id "sessions" ⟨none, some "demo", none, none, none⟩ false [] =
      .valueError "No sessions found matching */demo/*" := by decide
example :
    _id "projects" ⟨none, some "demo", none, none, none⟩ false
      [⟨"alice", "demo", "a0-1", none⟩] = .ok "a0-1" ⟨"alice", "demo", "a0-1", none⟩ := by
  decide

/-! ## Claims C1, C3 and C10 about _id -/

/-- Claim C1: on the quiet path with zero matches, and likewise with
more than one match, api.py line 330 subscripts the None record
(`return rec[...], rec` after `id, rec = None, None`), raising a
TypeError instead of returning the empty result that the quiet flag
promises and that callers such as session_info, job_info and run_info
(`if id:`) expect. The theorem evaluates _id at both failing inputs. -/
theorem uid_quiet_crash :
    _id "sessions" ⟨none, some "demo", none, none, none⟩ true [] = .typeError ∧
    _id "projects" ⟨none, some "demo", none, none, none⟩ true
        [⟨"alice", "demo", "a0-1", none⟩, ⟨"bob", "demo", "a0-2", none⟩] =
      .typeError := by
  decide

/-- The match predicate exactly as claim C3 states it: glob matching
independently on all four identifier fields against the record, each
identifier field unspecified in the identifier defaulting to the
match-anything pattern. -/
def specMatchClaim (ident : Ident) (r : Rec) : Bool :=
  fnmatch r.owner (ident.owner.getD "*") && fnmatch r.name (ident.name.getD "*") &&
    fnmatch r.id (ident.id.getD "*") && fnmatch (r.project_id.getD "") (ident.pid.getD "*")

/-- Claim C3 counterexample: resolving type projects with an
identifier whose pid is a0-zzz, against a listing whose single record
has project id a0-qqq. The code forces the parent-id pattern to the
wildcard whenever the type is projects, so the record matches and _id
resolves it, while the predicate claimed in C3 requires glob(I.pid,
R.project_id), which fails. -/
theorem uid_filter_claim_cx :
    idMatchPred "projects" ⟨none, none, none, some "a0-zzz", none⟩
        ⟨"bob", "demo", "a0-123", some "a0-qqq"⟩ = true ∧
    specMatchClaim ⟨none, none, none, some "a0-zzz", none⟩
        ⟨"bob", "demo", "a0-123", some "a0-qqq"⟩ = false ∧
    _id "projects" ⟨none, none, none, some "a0-zzz", none⟩ false
        [⟨"bob", "demo", "a0-123", some "a0-qqq"⟩] =
      .ok "a0-123" ⟨"bob", "demo", "a0-123", some "a0-qqq"⟩ := by
  decide

/-- The match predicate as claim C3 must be amended: the id pattern is
used only when the id is specified, non-empty and its type-prefix
classification equals the id type of the listing (jobs and runs
resolving against deployments), the parent-id pattern only when the
pid is specified, non-empty and the type is not projects; owner and
name default to the wildcard when unspecified or empty, and a record
without a project id contributes the empty string. -/
def specMatchAmended (ty : String) (ident : Ident) (r : Rec) : Bool :=
  let ownPat := match ident.owner with
    | none => "*"
    | some s => if s = "" then "*" else s
  let nmPat := match ident.name with
    | none => "*"
    | some s => if s = "" then "*" else s
  let iPat := match ident.id with
    | none => "*"
    | some s => if s ≠ "" ∧ tvalOf ty = id_type s then s else "*"
  let pPat := match ident.pid with
    | none => "*"
    | some s => if s ≠ "" ∧ ty ≠ "projects" then s else "*"
  fnmatch r.owner ownPat && fnmatch r.name nmPat && fnmatch r.id iPat &&
    fnmatch (r.project_id.getD "") pPat

/-- Claim C3 as amended: the filter applied by _id coincides, record
by record and on whole listings, with the four-way glob predicate in
which the id and parent-id patterns fall back to the wildcard under
the conditions of the code (id usable only when its classified type
equals the id type of the listing, pid only for non-project types). -/
theorem uid_filter_amended (ty : String) (ident : Ident) :
    (∀ r : Rec, idMatchPred ty ident r = specMatchAmended ty ident r) ∧
    (∀ records : List Rec,
      records.filter (idMatchPred ty ident) =
        records.filter (specMatchAmended ty ident)) := by
  have hip : idPat ty ident = (match ident.id with
      | none => "*"
      | some s => if s ≠ "" ∧ tvalOf ty = id_type s then s else "*") := by
    rcases hi : ident.id with _ | s
    · simp [idPat, pyTruthy, hi]
    · by_cases hs : s = ""
      · subst hs; simp [idPat, pyTruthy, hi]
      · by_cases ht : tvalOf ty = id_type s
        · simp [idPat, pyTruthy, idtypeOf, hi, hs, ht]
        · simp [idPat, pyTruthy, idtypeOf, hi, hs, ht]
  have hpp : pidPat ty ident = (match ident.pid with
      | none => "*"
      | some s => if s ≠ "" ∧ ty ≠ "projects" then s else "*") := by
    rcases hp : ident.pid with _ | s
    · simp [pidPat, pyTruthy, hp]
    · by_cases hs : s = ""
      · subst hs; simp [pidPat, pyTruthy, hp]
      · by_cases ht : ty = "projects"
        · simp [pidPat, pyTruthy, hp, hs, ht]
        · simp [pidPat, pyTruthy, hp, hs, ht]
  have h : ∀ r : Rec, idMatchPred ty ident r = specMatchAmended ty ident r := by
    intro r
    simp only [idMatchPred, specMatchAmended, ownerPat, namePat, pyOrStar, hip, hpp]
  exact ⟨h, fun records => List.filter_congr (fun r _ => h r)⟩

/-- Claim C10: when the identifier carries an id whose type-prefix
classification is neither projects nor the id type of the listing
(jobs and runs resolving against deployments), _id raises a
ValueError naming the expected and the found id types, independently
of the listing (which is never consulted) and of the quiet flag. -/
theorem uid_id_type_guard (ty : String) (ident : Ident) (quiet : Bool)
    (records records2 : List Rec)
    (h : pyTruthy ident.id = true)
    (h1 : id_type (ident.id.getD "") ≠ "projects")
    (h2 : id_type (ident.id.getD "") ≠ tvalOf ty) :
    _id ty ident quiet records =
      .valueError ("Expected a " ++ ty ++ " ID type, found a " ++
        id_type (ident.id.getD "") ++ " ID: " ++ identStr ident) ∧
    _id ty ident quiet records = _id ty ident quiet records2 := by
  have hidt : idtypeOf ty ident = id_type (ident.id.getD "") := by
    simp [idtypeOf, h]
  have hmain : ∀ recs : List Rec, _id ty ident quiet recs =
      .valueError ("Expected a " ++ ty ++ " ID type, found a " ++
        id_type (ident.id.getD "") ++ " ID: " ++ identStr ident) := by
    intro recs
    simp only [_id, hidt]
    rw [if_pos ⟨h1, h2⟩]
  exact ⟨hmain records, (hmain records).trans (hmain records2).symm⟩

/-- Witness for C10 at a concrete input: an id with an unknown prefix
resolved as a sessions identifier fails before any listing is used,
with the quiet flag set. -/
theorem uid_id_type_guard_witness :
    pyTruthy (some "zz-9") = true ∧
    (_id "sessions" ⟨none, none, some "zz-9", none, none⟩ true
        [⟨"a", "b", "a1-1", none⟩] =
      .valueError "Expected a sessions ID type, found a unknown ID: zz-9" ∧
    _id "sessions" ⟨none, none, some "zz-9", none, none⟩ true
        [⟨"a", "b", "a1-1", none⟩] =
      _id "sessions" ⟨none, none, some "zz-9", none, none⟩ true []) := by
  refine ⟨by decide, ?_⟩
  have h := uid_id_type_guard "sessions" ⟨none, none, some "zz-9", none, none⟩ true
    [⟨"a", "b", "a1-1", none⟩] [] (by decide) (by decide) (by decide)
  exact h

/-! ## AESessionBase._api and claim C2

_api (api.py lines 199-219) issues the request when connected, then,
when the session was not connected or the response is a 401 or the
cookie-flow login challenge, authorizes and issues the request once
more (the short-circuit of line 214 protects the unbound response
variable when not connected); any final status of 400 or above raises
AEUnexpectedResponseError carrying the method, the url and the request
keyword arguments. The remote side is an oracle `send` giving the
response to the n-th request issued by this call; authorize is assumed
to succeed (its own behavior is claim C6). -/

/-- An HTTP response as _api inspects it. -/
structure HResp where
  status : Nat
  ctype : String
  hasLoginForm : Bool
deriving DecidableEq, Repr

/-- AEUserSession._is_login (api.py lines 259-265): a 200 text/html
body containing the kc-form-login form; anything else is falsy. -/
def is_login (r : HResp) : Bool :=
  r.status == 200 && isPrefixL "text/html".data r.ctype.data && r.hasLoginForm

/-- The url built at api.py lines 201-210 from the endpoint, the
session prefix and an optional subdomain. -/
def buildUrl (hostname pre endpoint : String) (subdomain : Option String) : String :=
  let isabs := isPrefixL "/".data endpoint.data
  let ep := String.mk (endpoint.data.dropWhile (fun c => c = '/'))
  let sub := match subdomain with
    | some s => s ++ "."
    | none => ""
  let isabs := match subdomain with
    | some _ => true
    | none => isabs
  let ep := if isabs then ep else pre ++ "/" ++ ep
  "https://" ++ sub ++ hostname ++ "/" ++ ep

/-- Outcome of _api before response formatting: the response, or the
raised AEUnexpectedResponseError with its diagnostic payload. -/
inductive ApiResult where
  | ok (r : HResp)
  | unexpected (method url : String) (params : List (String × String)) (r : HResp)
deriving DecidableEq, Repr

/-- The status check of api.py lines 217-218. -/
def checkResp (method url : String) (params : List (String × String)) (r : HResp) :
    ApiResult :=
  if 400 ≤ r.status then .unexpected method url params r else .ok r

/-- AESessionBase._api: returns the outcome together with the number
of requests issued through the transport and the number of authorize
calls made. -/
def _api (connected : Bool) (send : Nat → HResp) (method url : String)
    (params : List (String × String)) : ApiResult × Nat × Nat :=
  if connected then
    let r0 := send 0
    if r0.status == 401 || is_login r0 then
      (checkResp method url params (send 1), 2, 1)
    else
      (checkResp method url params r0, 1, 0)
  else
    (checkResp method url params (send 0), 1, 1)

/-- Claim C2: a request re-authenticates and re-issues exactly once
when the session was unconnected, the response was a 401, or the
response was the cookie-flow login challenge; it never issues more
than two requests or authorizes more than once; and a final status of
400 or above raises the unexpected-response error carrying the method,
the url and the request parameters. -/
theorem api_retry_spec (connected : Bool) (send : Nat → HResp)
    (method url : String) (params : List (String × String)) :
    ((_api connected send method url params).2.1 ≤ 2 ∧
      (_api connected send method url params).2.2 ≤ 1) ∧
    (connected = true → (send 0).status ≠ 401 → is_login (send 0) = false →
      _api connected send method url params =
        (checkResp method url params (send 0), 1, 0)) ∧
    (connected = true → ((send 0).status = 401 ∨ is_login (send 0) = true) →
      _api connected send method url params =
        (checkResp method url params (send 1), 2, 1)) ∧
    (connected = false →
      _api connected send method url params =
        (checkResp method url params (send 0), 1, 1)) ∧
    (∀ r, (_api connected send method url params).1 = .ok r → r.status < 400) ∧
    (∀ m u p r, (_api connected send method url params).1 = .unexpected m u p r →
      400 ≤ r.status ∧ m = method ∧ u = url ∧ p = params) := by
  have hres : ∀ m u p r r0, checkResp method url params r0 = .unexpected m u p r →
      400 ≤ r.status ∧ m = method ∧ u = url ∧ p = params := by
    intro m u p r r0 he
    by_cases h4 : 400 ≤ r0.status
    · rw [checkResp, if_pos h4] at he
      cases he
      exact ⟨h4, rfl, rfl, rfl⟩
    · rw [checkResp, if_neg h4] at he
      cases he
  have hok : ∀ r r0, checkResp method url params r0 = .ok r → r.status < 400 := by
    intro r r0 he
    by_cases h4 : 400 ≤ r0.status
    · rw [checkResp, if_pos h4] at he
      cases he
    · rw [checkResp, if_neg h4] at he
      cases he
      exact Nat.lt_of_not_le h4
  obtain hc | hc := Bool.eq_false_or_eq_true connected <;> subst hc
  · by_cases htr : ((send 0).status == 401 || is_login (send 0)) = true
    · have he : _api true send method url params =
          (checkResp method url params (send 1), 2, 1) := by
        simp [_api, htr]
      refine ⟨⟨by rw [he], by rw [he]⟩,
        ?_, ?_, ?_, ?_, ?_⟩
      · intro _ h1 h2
        have htr3 := htr
        rw [Bool.or_eq_true] at htr3
        rcases htr3 with ha | hb
        · exact absurd (beq_iff_eq.mp ha) h1
        · rw [h2] at hb
          exact Bool.noConfusion hb
      · intro _ _
        exact he
      · intro h
        exact absurd h (by simp)
      · intro r h
        rw [he] at h
        exact hok r (send 1) h
      · intro m u p r h
        rw [he] at h
        exact hres m u p r (send 1) h
    · have htr2 : ((send 0).status == 401 || is_login (send 0)) = false :=
        Bool.eq_false_iff.mpr htr
      have he : _api true send method url params =
          (checkResp method url params (send 0), 1, 0) := by
        simp [_api, htr2]
      refine ⟨⟨by rw [he]; exact Nat.le_succ 1, by rw [he]; exact Nat.zero_le 1⟩,
        ?_, ?_, ?_, ?_, ?_⟩
      · intro _ _ _
        exact he
      · intro _ hd
        exfalso
        apply htr
        rcases hd with h1 | h2
        · simp [h1]
        · simp [h2]
      · intro h
        exact absurd h (by simp)
      · intro r h
        rw [he] at h
        exact hok r (send 0) h
      · intro m u p r h
        rw [he] at h
        exact hres m u p r (send 0) h
  · have he : _api false send method url params =
        (checkResp method url params (send 0), 1, 1) := rfl
    refine ⟨⟨by rw [he]; exact Nat.le_succ 1, by rw [he]⟩,
      ?_, ?_, ?_, ?_, ?_⟩
    · intro h
      exact absurd h (by simp)
    · intro h _
      exact absurd h (by simp)
    · intro _
      exact he
    · intro r h
      rw [he] at h
      exact hok r (send 0) h
    · intro m u p r h
      rw [he] at h
      exact hres m u p r (send 0) h

/-- Witness for C2 at concrete inputs: a connected session whose first
response is a 401 and whose retried response is a 500 authorizes once,
issues exactly two requests, and surfaces the unexpected-response
error carrying the method, url and parameters of the call. -/
theorem api_retry_spec_witness :
    (((fun n => if n = 0 then HResp.mk 401 "application/json" false
        else HResp.mk 500 "application/json" false) 0).status = 401 ∨
      is_login ((fun n => if n = 0 then HResp.mk 401 "application/json" false
        else HResp.mk 500 "application/json" false) 0) = true) ∧
    _api true (fun n => if n = 0 then HResp.mk 401 "application/json" false
        else HResp.mk 500 "application/json" false) "get" "https://h/api/v2/projects"
        [("sort", "-updated")] =
      (.unexpected "get" "https://h/api/v2/projects" [("sort", "-updated")]
        ⟨500, "application/json", false⟩, 2, 1) := by
  refine ⟨by decide, ?_⟩
  have h := (api_retry_spec true
    (fun n => if n = 0 then HResp.mk 401 "application/json" false
      else HResp.mk 500 "application/json" false)
    "get" "https://h/api/v2/projects" [("sort", "-updated")]).2.2.1 rfl (by decide)
  rw [h]
  decide

/-! ## Response normalization: AESessionBase._format_dataframe

_format_dataframe (api.py lines 150-176) turns a dict or a list of
dicts into a pandas DataFrame, replaces an empty frame by one holding
exactly the caller columns, converts the _DTYPES columns, reorders
columns to the canonical-then-extras order, and extracts row 0 as an
unnamed series for the dict case. Cell values are modelled by a small
value type; the external pandas to_datetime is modelled as a function
that leaves already-converted datetime values (and missing values,
which pandas turns into NaT) unchanged and maps strings and numbers
to datetimes through an abstract but concrete encoding. -/

/-- A cell value: string, integer, converted datetime, or missing. -/
inductive Value where
  | vstr (s : String)
  | vint (n : Int)
  | vdatetime (t : Int)
  | vnone
deriving DecidableEq, Repr

/-- Concrete stand-in for datetime parsing of the external pandas
library (the particular encoding of parsed strings is irrelevant to
every claim; what matters is that it is a function). -/
def strCode (s : String) : Int :=
  s.data.foldl (fun a c => a * 256 + (c.toNat : Int)) 0

/-- Model of pandas.to_datetime with default unit: datetimes and
missing values pass through, strings parse, integers are epoch
nanoseconds. -/
def to_datetime : Value → Value
  | .vdatetime t => .vdatetime t
  | .vstr s => .vdatetime (strCode s)
  | .vint n => .vdatetime n
  | .vnone => .vnone

/-- Model of pandas.to_datetime with an explicit epoch unit factor. -/
def to_datetime_unit (factor : Int) : Value → Value
  | .vdatetime t => .vdatetime t
  | .vstr s => .vdatetime (strCode s * factor)
  | .vint n => .vdatetime (n * factor)
  | .vnone => .vnone

/-- The _DTYPES table of api.py lines 35-36. -/
def _DTYPES : List (String × String) :=
  [("created", "datetime"), ("updated", "datetime"),
    ("createdTimestamp", "timestamp/ms"), ("notBefore", "timestamp/s")]

/-- The per-column conversion selected by the dtype loop of api.py
lines 160-167, specialized to the dtype strings occurring in _DTYPES
(the trailing astype branch is unreachable for them). -/
def applyDtype (dtype : String) (v : Value) : Value :=
  if dtype = "datetime" then to_datetime v
  else if dtype = "timestamp/ms" then to_datetime_unit 1000000 v
  else if dtype = "timestamp/s" then to_datetime_unit 1000000000 v
  else v

/-- A DataFrame: named columns and rows aligned with them. -/
structure Table where
  cols : List String
  rows : List (List Value)
deriving DecidableEq, Repr

/-- First-match association lookup (Python dict access on the records
feeding the frame). -/
def lookupS (c : String) : List (String × Value) → Option Value
  | [] => none
  | (k, v) :: r => if k = c then some v else lookupS c r

/-- First-appearance deduplication, the column-union order pandas uses
when building a frame from a list of dicts. -/
def dedupAux : List String → List String → List String
  | _, [] => []
  | seen, c :: cs => if c ∈ seen then dedupAux seen cs else c :: dedupAux (c :: seen) cs

def dedupFirst (l : List String) : List String := dedupAux [] l

/-- The keys of one record, in insertion order. -/
def recKeys (r : List (String × Value)) : List String := r.map Prod.fst

/-- pandas.DataFrame(list-of-dicts): columns are the first-appearance
union of the record keys, every row is materialized against all
columns with NaN (here vnone) for missing keys. -/
def mkDataFrame (records : List (List (String × Value))) : Table :=
  let cols := dedupFirst (List.flatten (records.map recKeys))
  ⟨cols, records.map (fun r => cols.map (fun c => (lookupS c r).getD .vnone))⟩

/-- In-place update of one column of a frame. -/
def setCol (t : Table) (c : String) (f : Value → Value) : Table :=
  ⟨t.cols, t.rows.map (fun row =>
    (t.cols.zip row).map (fun p => if p.1 = c then f p.2 else p.2))⟩

/-- The dtype-conversion loop of api.py lines 160-167. -/
def applyDtypes (t : Table) : Table :=
  _DTYPES.foldl
    (fun t2 cd => if cd.1 ∈ t2.cols then setCol t2 cd.1 (applyDtype cd.2) else t2) t

/-- One cell of a row under a column name. -/
def cellOf (cols : List String) (row : List Value) (c : String) : Value :=
  (lookupS c (cols.zip row)).getD .vnone

/-- Column selection / reordering, pandas df[cols]. -/
def selectCols (t : Table) (cols2 : List String) : Table :=
  ⟨cols2, t.rows.map (fun row => cols2.map (fun c => cellOf t.cols row c))⟩

/-- The column order computed at api.py lines 169-170: canonical
columns present in the data, then data columns outside the canonical
list in their original order. -/
def orderCols (columns dfcols : List String) : List String :=
  columns.filter (fun c => c ∈ dfcols) ++ dfcols.filter (fun c => c ∉ columns)

/-- The table pipeline of _format_dataframe (api.py lines 157-172):
build the frame, substitute the caller columns when the frame is
empty, convert dtypes, reorder columns. An empty `columns` models the
falsy Python values None and the empty list. -/
def format_table (records : List (List (String × Value))) (columns : List String) :
    Table :=
  let df := mkDataFrame records
  let df := if df.rows.length = 0 ∧ columns ≠ [] then ⟨columns, []⟩ else df
  let df := applyDtypes df
  if columns ≠ [] then
    let cols2 := orderCols columns df.cols
    if cols2 ≠ [] then selectCols df cols2 else df
  else df

/-- Raw payload accepted by _format_dataframe: a single mapping or a
homogeneous list of mappings (any other shape raises before this
point). -/
inductive Raw where
  | record (r : List (String × Value))
  | table (rs : List (List (String × Value)))

/-- Result shape: a series (row 0, with the synthetic name stripped)
for a dict input, a table for a list input. -/
inductive Formatted where
  | series (cols : List String) (vals : List Value)
  | table (t : Table)
deriving DecidableEq, Repr

/-- AESessionBase._format_dataframe (api.py lines 150-176). -/
def _format_dataframe (raw : Raw) (columns : List String) : Formatted :=
  match raw with
  | .record r =>
      let t := format_table [r] columns
      .series t.cols (t.rows.headD [])
  | .table rs => .table (format_table rs columns)

/-- A normalized table re-enters the normalizer as the list of its
rows read back as records (pandas to_dict orient records). -/
def toRecords (t : Table) : List (List (String × Value)) :=
  t.rows.map (fun row => t.cols.zip row)

example :
    format_table [[("id", .vstr "a0-1"), ("name", .vstr "p")],
        [("name", .vstr "q"), ("owner", .vstr "u")]] ["name", "owner", "created"] =
      ⟨["name", "owner", "id"],
        [[.vstr "p", .vnone, .vstr "a0-1"], [.vstr "q", .vstr "u", .vnone]]⟩ := by
  decide

example :
    format_table [] ["name", "owner"] = ⟨["name", "owner"], []⟩ := by decide

example :
    format_table [[("created", .vstr "t"), ("name", .vstr "p")]] ["name", "created"] =
      ⟨["name", "created"], [[.vstr "p", .vdatetime (strCode "t")]]⟩ := by decide

/-! ## Claim C4: column ordering of _format_dataframe -/

/-- The dtype loop never changes the column list. -/
theorem dt_foldl_cols (l : List (String × String)) (t : Table) :
    (l.foldl
      (fun t2 cd => if cd.1 ∈ t2.cols then setCol t2 cd.1 (applyDtype cd.2) else t2)
      t).cols = t.cols := by
  induction l generalizing t with
  | nil => rfl
  | cons cd l ih =>
    rw [List.foldl_cons, ih]
    by_cases h : cd.1 ∈ t.cols
    · rw [if_pos h]
      rfl
    · rw [if_neg h]

theorem applyDtypes_cols (t : Table) : (applyDtypes t).cols = t.cols :=
  dt_foldl_cols _DTYPES t

/-- The dtype loop fixes row-less tables. -/
theorem dt_foldl_nilrows (l : List (String × String)) (cs : List String) :
    (l.foldl
      (fun t2 cd => if cd.1 ∈ t2.cols then setCol t2 cd.1 (applyDtype cd.2) else t2)
      ⟨cs, []⟩) = ⟨cs, []⟩ := by
  induction l with
  | nil => rfl
  | cons cd l ih =>
    rw [List.foldl_cons]
    by_cases h : cd.1 ∈ (Table.mk cs []).cols
    · rw [if_pos h]
      exact ih
    · rw [if_neg h]
      exact ih

theorem applyDtypes_nilrows (cs : List String) :
    applyDtypes ⟨cs, []⟩ = ⟨cs, []⟩ :=
  dt_foldl_nilrows _DTYPES cs

theorem orderCols_nil_left (dc : List String) : orderCols [] dc = dc := by
  simp [orderCols]

theorem orderCols_self (cs : List String) : orderCols cs cs = cs := by
  have h1 : cs.filter (fun c => c ∈ cs) = cs :=
    List.filter_eq_self.mpr (by intro a ha; simpa using ha)
  have h2 : cs.filter (fun c => c ∉ cs) = [] :=
    List.filter_eq_nil.mpr (by intro a ha; simp [ha])
  simp [orderCols, h1, h2]

theorem orderCols_eq_nil (columns dc : List String)
    (h : orderCols columns dc = []) : dc = [] := by
  rcases List.append_eq_nil.mp h with ⟨h1, h2⟩
  cases dc with
  | nil => rfl
  | cons c cs =>
    by_cases hcc : c ∈ columns
    · have hm : c ∈ columns.filter (fun x => x ∈ (c :: cs)) :=
        List.mem_filter.mpr ⟨hcc, by simp⟩
      rw [h1] at hm
      simp at hm
    · have hm : c ∈ (c :: cs).filter (fun x => x ∉ columns) :=
        List.mem_filter.mpr ⟨by simp, by simpa using hcc⟩
      rw [h2] at hm
      simp at hm

/-- _format_dataframe on an empty listing yields a table holding
exactly the caller columns and no rows. -/
theorem format_table_nil (columns : List String) :
    format_table [] columns = ⟨columns, []⟩ := by
  by_cases hcol : columns = []
  · subst hcol
    decide
  · simp only [format_table]
    rw [if_pos hcol,
      if_pos (⟨rfl, hcol⟩ : (mkDataFrame []).rows.length = 0 ∧ columns ≠ []),
      applyDtypes_nilrows]
    have hoc : orderCols columns (Table.mk columns []).cols = columns :=
      orderCols_self columns
    rw [hoc, if_pos hcol]
    rfl

/-- Claim C4: for every payload and caller column list, the output
columns are the canonical columns present in the data, in canonical
order, then the data columns outside the canonical list in their
original first-appearance order; an empty listing reports exactly the
caller columns (and the caller columns equal the output even when
both are empty). -/
theorem format_dataframe_columns (records : List (List (String × Value)))
    (columns : List String) :
    (format_table records columns).cols =
      if records.isEmpty then columns
      else orderCols columns (mkDataFrame records).cols := by
  cases records with
  | nil =>
    rw [format_table_nil]
    simp
  | cons r rs =>
    have hnz : ¬((mkDataFrame (r :: rs)).rows.length = 0 ∧ columns ≠ []) := by
      intro hand
      have hl : (mkDataFrame (r :: rs)).rows.length = (r :: rs).length := by
        simp [mkDataFrame]
      rw [hl] at hand
      exact absurd hand.1 (by simp)
    simp only [format_table]
    by_cases hcol : columns = []
    · subst hcol
      rw [if_neg (fun h => h rfl),
        if_neg (fun hand => hand.2 rfl :
          ¬((mkDataFrame (r :: rs)).rows.length = 0 ∧ ([] : List String) ≠ [])),
        applyDtypes_cols, orderCols_nil_left]
      simp
    · rw [if_pos hcol, if_neg hnz]
      by_cases h2 : orderCols columns (applyDtypes (mkDataFrame (r :: rs))).cols = []
      · rw [if_neg (fun hne => hne h2)]
        rw [applyDtypes_cols] at h2
        have hdc : (mkDataFrame (r :: rs)).cols = [] := orderCols_eq_nil columns _ h2
        rw [applyDtypes_cols, hdc]
        simp [orderCols]
      · rw [if_pos h2]
        simp only [selectCols, applyDtypes_cols]
        simp

/-! ## Claim C9: idempotence of normalization on normalized tables -/

/-- Deduplication drops a block whose members are all already seen. -/
theorem dedupAux_subset_nil (xs seen : List String)
    (h : ∀ a ∈ xs, a ∈ seen) : dedupAux seen xs = [] := by
  induction xs with
  | nil => rfl
  | cons c cs ih =>
    have hc : c ∈ seen := h c (List.mem_cons_self c cs)
    simp only [dedupAux, if_pos hc]
    exact ih (fun a ha => h a (List.mem_cons_of_mem c ha))

/-- Deduplication ignores an appended block whose members already
occur in the first block or were already seen. -/
theorem dedupAux_append (l xs seen : List String)
    (h : ∀ a ∈ xs, a ∈ l ∨ a ∈ seen) :
    dedupAux seen (l ++ xs) = dedupAux seen l := by
  induction l generalizing seen with
  | nil =>
    have h2 : ∀ a ∈ xs, a ∈ seen := by
      intro a ha
      rcases h a ha with h3 | h3
      · exact absurd h3 (List.not_mem_nil a)
      · exact h3
    rw [List.nil_append]
    exact dedupAux_subset_nil xs seen h2
  | cons c l ih =>
    by_cases hc : c ∈ seen
    · rw [List.cons_append]
      simp only [dedupAux, if_pos hc]
      apply ih
      intro a ha
      rcases h a ha with h3 | h3
      · rcases List.mem_cons.mp h3 with h4 | h4
        · exact Or.inr (h4 ▸ hc)
        · exact Or.inl h4
      · exact Or.inr h3
    · rw [List.cons_append]
      simp only [dedupAux, if_neg hc]
      congr 1
      apply ih
      intro a ha
      rcases h a ha with h3 | h3
      · rcases List.mem_cons.mp h3 with h4 | h4
        · exact Or.inr (by simp [h4])
        · exact Or.inl h4
      · exact Or.inr (List.mem_cons_of_mem c h3)

/-- Deduplication is the identity on a duplicate-free list disjoint
from the seen set. -/
theorem dedupAux_nodup_id (l seen : List String) (hnd : l.Nodup)
    (h : ∀ a ∈ l, a ∉ seen) : dedupAux seen l = l := by
  induction l generalizing seen with
  | nil => rfl
  | cons c cs ih =>
    have hc : c ∉ seen := h c (List.mem_cons_self c cs)
    simp only [dedupAux, if_neg hc]
    congr 1
    rcases List.nodup_cons.mp hnd with ⟨hcc, hnd2⟩
    apply ih (c :: seen) hnd2
    intro a ha
    intro hmem
    rcases List.mem_cons.mp hmem with h4 | h4
    · exact hcc (h4 ▸ ha)
    · exact h a (List.mem_cons_of_mem c ha) h4

/-- Reading every column of a row back out of the zipped record
reproduces the row, for duplicate-free columns. -/
theorem lookup_zip_map (cols : List String) (row : List Value)
    (hnd : cols.Nodup) (hlen : row.length = cols.length) :
    cols.map (fun c => (lookupS c (cols.zip row)).getD .vnone) = row := by
  induction cols generalizing row with
  | nil =>
    rw [List.map_nil]
    exact (List.length_eq_zero.mp (by simpa using hlen)).symm
  | cons c cs ih =>
    cases row with
    | nil => simp at hlen
    | cons v vs =>
      rcases List.nodup_cons.mp hnd with ⟨hcc, hnd2⟩
      rw [List.map_cons]
      have hhead : (lookupS c ((c :: cs).zip (v :: vs))).getD Value.vnone = v := by
        simp [List.zip_cons_cons, lookupS]
      have htail : cs.map (fun x => (lookupS x ((c :: cs).zip (v :: vs))).getD .vnone) =
          cs.map (fun x => (lookupS x (cs.zip vs)).getD .vnone) := by
        apply List.map_congr_left
        intro x hx
        have hxc : ¬(c = x) := fun he => hcc (he ▸ hx)
        simp [List.zip_cons_cons, lookupS, hxc, List.zip]
      rw [hhead, htail, ih vs hnd2 (by simpa using hlen)]

/-- Rebuilding a frame from its own records gives the frame back, for
duplicate-free columns, aligned rows and at least one row. -/
theorem mkDataFrame_toRecords (t : Table) (hnd : t.cols.Nodup)
    (hal : ∀ row ∈ t.rows, row.length = t.cols.length) (hne : t.rows ≠ []) :
    mkDataFrame (toRecords t) = t := by
  have hkeys : (toRecords t).map recKeys = t.rows.map (fun _ => t.cols) := by
    unfold toRecords
    rw [List.map_map]
    apply List.map_congr_left
    intro row hrow
    show recKeys (t.cols.zip row) = t.cols
    unfold recKeys
    exact List.map_fst_zip _ _ (le_of_eq (hal row hrow).symm)
  have hC : dedupFirst (List.flatten ((toRecords t).map recKeys)) = t.cols := by
    rw [hkeys]
    cases hr : t.rows with
    | nil => exact absurd hr hne
    | cons row rest =>
      rw [List.map_cons, List.flatten_cons]
      unfold dedupFirst
      rw [dedupAux_append t.cols (List.flatten (rest.map fun _ => t.cols)) []
        (by
          intro a ha
          left
          rcases List.mem_flatten.mp ha with ⟨l, hl, hal2⟩
          rcases List.mem_map.mp hl with ⟨_, _, rfl⟩
          exact hal2)]
      exact dedupAux_nodup_id t.cols [] hnd (by intro a _; exact List.not_mem_nil a)
  have hrows : (toRecords t).map
      (fun r => t.cols.map (fun c => (lookupS c r).getD .vnone)) = t.rows := by
    unfold toRecords
    rw [List.map_map]
    have h2 : ∀ row ∈ t.rows,
        ((fun r => t.cols.map fun c => (lookupS c r).getD .vnone) ∘
          fun row => t.cols.zip row) row = id row := by
      intro row hrow
      show t.cols.map (fun c => (lookupS c (t.cols.zip row)).getD .vnone) = row
      exact lookup_zip_map t.cols row hnd (hal row hrow)
    rw [List.map_congr_left h2, List.map_id]
  simp only [mkDataFrame]
  rw [hC, hrows]

/-- Claim C9: normalization is idempotent on normalized tables. For a
table whose columns are already in the canonical-then-extras order the
normalizer produces (a no-op of the ordering step), whose declared
datetime and timestamp columns are already converted (a no-op of the
dtype loop), whose rows are aligned and whose columns are duplicate
free, with an empty table carrying exactly the caller columns,
re-running _format_dataframe over its records with the same caller
columns returns the same table: same columns, same order, same
values. -/
theorem format_dataframe_idempotent (t : Table) (columns : List String)
    (hnd : t.cols.Nodup)
    (hal : ∀ row ∈ t.rows, row.length = t.cols.length)
    (hord : orderCols columns t.cols = t.cols)
    (hdt : applyDtypes t = t)
    (hemp : t.rows = [] → t.cols = columns) :
    format_table (toRecords t) columns = t := by
  by_cases hr : t.rows = []
  · have hcols : t.cols = columns := hemp hr
    have htr : toRecords t = [] := by simp [toRecords, hr]
    rw [htr, format_table_nil, ← hcols, ← hr]
  · have hmk : mkDataFrame (toRecords t) = t := mkDataFrame_toRecords t hnd hal hr
    have hrepl : ¬(t.rows.length = 0 ∧ columns ≠ []) := by
      intro hand
      exact hr (List.length_eq_zero.mp hand.1)
    simp only [format_table]
    rw [hmk]
    by_cases hcol : columns = []
    · subst hcol
      rw [if_neg (fun h => h rfl),
        if_neg (fun hand => hand.2 rfl :
          ¬(t.rows.length = 0 ∧ ([] : List String) ≠ [])), hdt]
    · rw [if_pos hcol, if_neg hrepl, hdt, hord]
      by_cases hc2 : t.cols = []
      · rw [if_neg (fun hne2 => hne2 hc2)]
      · rw [if_pos hc2]
        show selectCols t t.cols = t
        have hrows2 : t.rows.map (fun row2 => t.cols.map (fun c =>
            cellOf t.cols row2 c)) = t.rows := by
          have h2 : ∀ row2 ∈ t.rows, (fun row2 => t.cols.map (fun c =>
              cellOf t.cols row2 c)) row2 = id row2 := by
            intro row2 hrow2
            show t.cols.map (fun c => (lookupS c (t.cols.zip row2)).getD .vnone) = row2
            exact lookup_zip_map t.cols row2 hnd (hal row2 hrow2)
          rw [List.map_congr_left h2, List.map_id]
        unfold selectCols
        rw [hrows2]

/-- Witness for C9 at a concrete table: a two-column, one-row table
already normalized against a three-column canonical list (with its
created column already a datetime) maps to itself. -/
theorem format_dataframe_idempotent_witness :
    format_table
        (toRecords ⟨["name", "created"], [[Value.vstr "p", Value.vdatetime 5]]⟩)
        ["name", "created", "owner"] =
      ⟨["name", "created"], [[Value.vstr "p", Value.vdatetime 5]]⟩ :=
  format_dataframe_idempotent
    ⟨["name", "created"], [[Value.vstr "p", Value.vdatetime 5]]⟩
    ["name", "created", "owner"]
    (by decide) (by decide) (by decide) (by decide) (by decide)

/-! ## AEUserSession._wait and claim C5

_wait (api.py lines 544-554) loops until the tracked status record
has done or error set; each iteration sleeps, then fetches the
activity feed of the project sorted newest-first with page size
index+1, looks for the tracked id in the returned page, and increments
index exactly when the id was not found (StopIteration). The remote
feed is an oracle from (poll ordinal, requested page size) to either
an HTTP error (which _get raises, there is no try around it) or a
page of records. Fuel bounds the unbounded Python loop. -/

/-- One activity status record as _wait reads it. -/
structure SRec where
  id : String
  done : Bool
  error : Bool
deriving DecidableEq, Repr

/-- One activity request issued by _wait: its poll ordinal, the sort
parameter sent, and the requested page size. -/
structure PollReq where
  n : Nat
  sort : String
  size : Nat
deriving DecidableEq, Repr

inductive WaitOut where
  | ret (s : SRec)
  | raised (e : Nat)
  | fuelOut
deriving DecidableEq, Repr

/-- The _wait loop: returns the outcome and the trace of activity
requests issued. -/
def waitAux (fetch : Nat → Nat → Except Nat (List SRec)) :
    Nat → Nat → Nat → SRec → WaitOut × List PollReq
  | 0, _, _, s => if !s.done && !s.error then (.fuelOut, []) else (.ret s, [])
  | fuel + 1, n, index, s =>
    if !s.done && !s.error then
      match fetch n (index + 1) with
      | .error e => (.raised e, [⟨n, "-updated", index + 1⟩])
      | .ok page =>
        match page.find? (fun t2 => t2.id == s.id) with
        | some t2 =>
          let r := waitAux fetch fuel (n + 1) index t2
          (r.1, ⟨n, "-updated", index + 1⟩ :: r.2)
        | none =>
          let r := waitAux fetch fuel (n + 1) (index + 1) s
          (r.1, ⟨n, "-updated", index + 1⟩ :: r.2)
    else (.ret s, [])

def _wait (fetch : Nat → Nat → Except Nat (List SRec)) (fuel : Nat) (s : SRec) :
    WaitOut × List PollReq :=
  waitAux fetch fuel 0 0 s

/-- Whether the request described by r found the tracked id. -/
def foundAt (fetch : Nat → Nat → Except Nat (List SRec)) (sid : String)
    (r : PollReq) : Bool :=
  match fetch r.n r.size with
  | .error _ => false
  | .ok page => (page.find? (fun t2 => t2.id == sid)).isSome

/-- A status on which the loop stops is terminal. -/
theorem cond_false_terminal (s : SRec) (hcond : ¬((!s.done && !s.error) = true)) :
    s.done = true ∨ s.error = true := by
  by_cases hd : s.done = true
  · exact Or.inl hd
  · right
    by_cases herr : s.error = true
    · exact herr
    · exact absurd (by simp [Bool.eq_false_iff.mpr hd, Bool.eq_false_iff.mpr herr])
        hcond

/-- A status returned by _wait is terminal. -/
theorem wait_ret_done (fetch : Nat → Nat → Except Nat (List SRec)) :
    ∀ fuel n index s s2, (waitAux fetch fuel n index s).1 = .ret s2 →
      s2.done = true ∨ s2.error = true := by
  intro fuel
  induction fuel with
  | zero =>
    intro n index s s2 h
    by_cases hcond : (!s.done && !s.error) = true
    · simp only [waitAux, if_pos hcond] at h
      cases h
    · simp only [waitAux, if_neg hcond] at h
      cases h
      exact cond_false_terminal s hcond
  | succ fuel ih =>
    intro n index s s2 h
    by_cases hcond : (!s.done && !s.error) = true
    · simp only [waitAux, if_pos hcond] at h
      cases hfe : fetch n (index + 1) with
      | error e =>
        simp only [hfe] at h
        cases h
      | ok page =>
        simp only [hfe] at h
        cases hfind : page.find? (fun t2 => t2.id == s.id) with
        | some t2 =>
          simp only [hfind] at h
          exact ih (n + 1) index t2 s2 h
        | none =>
          simp only [hfind] at h
          exact ih (n + 1) (index + 1) s s2 h
    · simp only [waitAux, if_neg hcond] at h
      cases h
      exact cond_false_terminal s hcond

/-- An already-terminal status returns at once with no request. -/
theorem wait_done_now (fetch : Nat → Nat → Except Nat (List SRec))
    (fuel n index : Nat) (s : SRec) (h : s.done = true ∨ s.error = true) :
    waitAux fetch fuel n index s = (.ret s, []) := by
  have hcond : (!s.done && !s.error) = false := by
    rcases h with h | h <;> simp [h]
  cases fuel <;> simp [waitAux, hcond]

/-- The first request of a run polls with the starting ordinal, the
newest-first sort, and page size index+1. -/
theorem wait_head (fetch : Nat → Nat → Except Nat (List SRec)) :
    ∀ fuel n index s, (waitAux fetch fuel n index s).2 ≠ [] →
      (waitAux fetch fuel n index s).2.head? = some ⟨n, "-updated", index + 1⟩ := by
  intro fuel
  cases fuel with
  | zero =>
    intro n index s h
    by_cases hcond : (!s.done && !s.error) = true
    · simp only [waitAux, if_pos hcond] at h
      exact absurd rfl h
    · simp only [waitAux, if_neg hcond] at h
      exact absurd rfl h
  | succ fuel =>
    intro n index s h
    by_cases hcond : (!s.done && !s.error) = true
    · simp only [waitAux, if_pos hcond] at h ⊢
      cases hfe : fetch n (index + 1) with
      | error e =>
        simp only [hfe]
        rfl
      | ok page =>
        simp only [hfe]
        cases hfind : page.find? (fun t2 => t2.id == s.id) with
        | some t2 =>
          simp only [hfind]
          rfl
        | none =>
          simp only [hfind]
          rfl
    · simp only [waitAux, if_neg hcond] at h
      exact absurd rfl h

/-- Every request of a run carries the newest-first sort parameter,
and the i-th request has poll ordinal n + i. -/
theorem wait_get (fetch : Nat → Nat → Except Nat (List SRec)) :
    ∀ fuel n index s i r, (waitAux fetch fuel n index s).2.get? i = some r →
      r.sort = "-updated" ∧ r.n = n + i := by
  intro fuel
  induction fuel with
  | zero =>
    intro n index s i r h
    by_cases hcond : (!s.done && !s.error) = true
    · simp only [waitAux, if_pos hcond] at h
      cases h
    · simp only [waitAux, if_neg hcond] at h
      cases h
  | succ fuel ih =>
    intro n index s i r h
    by_cases hcond : (!s.done && !s.error) = true
    · simp only [waitAux, if_pos hcond] at h
      cases hfe : fetch n (index + 1) with
      | error e =>
        simp only [hfe] at h
        cases i with
        | zero =>
          cases h
          exact ⟨rfl, rfl⟩
        | succ i =>
          simp at h
      | ok page =>
        simp only [hfe] at h
        cases hfind : page.find? (fun t2 => t2.id == s.id) with
        | some t2 =>
          simp only [hfind] at h
          cases i with
          | zero =>
            cases h
            exact ⟨rfl, rfl⟩
          | succ i =>
            simp only [List.get?_cons_succ] at h
            obtain ⟨h1, h2⟩ := ih (n + 1) index t2 i r h
            exact ⟨h1, by omega⟩
        | none =>
          simp only [hfind] at h
          cases i with
          | zero =>
            cases h
            exact ⟨rfl, rfl⟩
          | succ i =>
            simp only [List.get?_cons_succ] at h
            obtain ⟨h1, h2⟩ := ih (n + 1) (index + 1) s i r h
            exact ⟨h1, by omega⟩
    · simp only [waitAux, if_neg hcond] at h
      cases h

/-- A raised outcome comes from the last request of the trace, whose
fetch returned the HTTP error: the error propagates immediately and
no further request is issued. -/
theorem wait_raised (fetch : Nat → Nat → Except Nat (List SRec)) :
    ∀ fuel n index s e, (waitAux fetch fuel n index s).1 = .raised e →
      ∃ r, (waitAux fetch fuel n index s).2.getLast? = some r ∧
        fetch r.n r.size = .error e := by
  intro fuel
  induction fuel with
  | zero =>
    intro n index s e h
    by_cases hcond : (!s.done && !s.error) = true
    · simp only [waitAux, if_pos hcond] at h
      cases h
    · simp only [waitAux, if_neg hcond] at h
      cases h
  | succ fuel ih =>
    intro n index s e h
    by_cases hcond : (!s.done && !s.error) = true
    · simp only [waitAux, if_pos hcond] at h ⊢
      cases hfe : fetch n (index + 1) with
      | error e2 =>
        simp only [hfe] at h ⊢
        cases h
        exact ⟨⟨n, "-updated", index + 1⟩, rfl, hfe⟩
      | ok page =>
        simp only [hfe] at h ⊢
        cases hfind : page.find? (fun t2 => t2.id == s.id) with
        | some t2 =>
          simp only [hfind] at h ⊢
          obtain ⟨r, hlast, herr⟩ := ih (n + 1) index t2 e h
          cases htr : (waitAux fetch fuel (n + 1) index t2).2 with
          | nil =>
            rw [htr] at hlast
            cases hlast
          | cons a as =>
            rw [htr] at hlast
            refine ⟨r, ?_, herr⟩
            rw [List.getLast?_cons_cons]
            exact hlast
        | none =>
          simp only [hfind] at h ⊢
          obtain ⟨r, hlast, herr⟩ := ih (n + 1) (index + 1) s e h
          cases htr : (waitAux fetch fuel (n + 1) (index + 1) s).2 with
          | nil =>
            rw [htr] at hlast
            cases hlast
          | cons a as =>
            rw [htr] at hlast
            refine ⟨r, ?_, herr⟩
            rw [List.getLast?_cons_cons]
            exact hlast
    · simp only [waitAux, if_neg hcond] at h
      cases h

/-- Between consecutive requests the page size grows by one exactly
when the tracked id was not found in the earlier page, and stays the
same when it was found. -/
theorem wait_chain (fetch : Nat → Nat → Except Nat (List SRec)) :
    ∀ fuel n index s i r r2,
      (waitAux fetch fuel n index s).2.get? i = some r →
      (waitAux fetch fuel n index s).2.get? (i + 1) = some r2 →
      r2.size = r.size + (if foundAt fetch s.id r = true then 0 else 1) := by
  intro fuel
  induction fuel with
  | zero =>
    intro n index s i r r2 h1 h2
    by_cases hcond : (!s.done && !s.error) = true
    · simp only [waitAux, if_pos hcond] at h1
      cases h1
    · simp only [waitAux, if_neg hcond] at h1
      cases h1
  | succ fuel ih =>
    intro n index s i r r2 h1 h2
    by_cases hcond : (!s.done && !s.error) = true
    · simp only [waitAux, if_pos hcond] at h1 h2
      cases hfe : fetch n (index + 1) with
      | error e =>
        simp only [hfe] at h1 h2
        rw [List.get?_cons_succ] at h2
        simp at h2
      | ok page =>
        simp only [hfe] at h1 h2
        cases hfind : page.find? (fun t2 => t2.id == s.id) with
        | some t2 =>
          simp only [hfind] at h1 h2
          have hp := List.find?_some hfind
          have hid : t2.id = s.id := by simpa using hp
          cases i with
          | zero =>
            cases h1
            rw [List.get?_cons_succ] at h2
            have hne : (waitAux fetch fuel (n + 1) index t2).2 ≠ [] := by
              intro hnil
              rw [hnil] at h2
              simp at h2
            have hh := wait_head fetch fuel (n + 1) index t2 hne
            rw [List.get?_zero, hh] at h2
            cases h2
            have hfound : foundAt fetch s.id ⟨n, "-updated", index + 1⟩ = true := by
              simp [foundAt, hfe, hfind]
            simp [hfound]
          | succ i =>
            rw [List.get?_cons_succ] at h1 h2
            have hrec := ih (n + 1) index t2 i r r2 h1 h2
            rw [hid] at hrec
            exact hrec
        | none =>
          simp only [hfind] at h1 h2
          cases i with
          | zero =>
            cases h1
            rw [List.get?_cons_succ] at h2
            have hne : (waitAux fetch fuel (n + 1) (index + 1) s).2 ≠ [] := by
              intro hnil
              rw [hnil] at h2
              simp at h2
            have hh := wait_head fetch fuel (n + 1) (index + 1) s hne
            rw [List.get?_zero, hh] at h2
            cases h2
            have hfound : foundAt fetch s.id ⟨n, "-updated", index + 1⟩ = false := by
              simp [foundAt, hfe, hfind]
            simp [hfound]
          | succ i =>
            rw [List.get?_cons_succ] at h1 h2
            exact ih (n + 1) (index + 1) s i r r2 h1 h2
    · simp only [waitAux, if_neg hcond] at h1
      cases h1

/-- Claim C5: the action poller returns exactly when the tracked
record reports done or error (an already-terminal record returns
without a request); every request carries the newest-first sort, the
i-th request is poll number i, the first requested page size is one,
consecutive page sizes grow by one exactly when the tracked id was
not found in the fetched page; and a raised outcome comes from the
final request, whose fetch returned an HTTP error — the error
propagates with no further request. -/
theorem wait_spec (fetch : Nat → Nat → Except Nat (List SRec)) (fuel : Nat)
    (s : SRec) :
    (∀ s2, (_wait fetch fuel s).1 = .ret s2 → s2.done = true ∨ s2.error = true) ∧
    ((s.done = true ∨ s.error = true) → _wait fetch fuel s = (.ret s, [])) ∧
    ((_wait fetch fuel s).2 ≠ [] →
      (_wait fetch fuel s).2.head? = some ⟨0, "-updated", 1⟩) ∧
    (∀ i r, (_wait fetch fuel s).2.get? i = some r →
      r.sort = "-updated" ∧ r.n = i) ∧
    (∀ i r r2, (_wait fetch fuel s).2.get? i = some r →
      (_wait fetch fuel s).2.get? (i + 1) = some r2 →
      r2.size = r.size + (if foundAt fetch s.id r = true then 0 else 1)) ∧
    (∀ e, (_wait fetch fuel s).1 = .raised e →
      ∃ r, (_wait fetch fuel s).2.getLast? = some r ∧ fetch r.n r.size = .error e) := by
  refine ⟨fun s2 h => wait_ret_done fetch fuel 0 0 s s2 h,
    fun h => wait_done_now fetch fuel 0 0 s h,
    fun h => wait_head fetch fuel 0 0 s h,
    fun i r h => ?_,
    fun i r r2 h1 h2 => wait_chain fetch fuel 0 0 s i r r2 h1 h2,
    fun e h => wait_raised fetch fuel 0 0 s e h⟩
  obtain ⟨hs, hn⟩ := wait_get fetch fuel 0 0 s i r h
  exact ⟨hs, by omega⟩

/-- Activity feed for the C5 witness scenario: the tracked action is
pushed out of the one-element window by newer activity and appears
only on the third poll, already done. -/
def sfetchW : Nat → Nat → Except Nat (List SRec) := fun n _ =>
  if n = 0 then .ok [⟨"new1", false, false⟩]
  else if n = 1 then .ok [⟨"new2", false, false⟩, ⟨"new1", false, false⟩]
  else .ok [⟨"new3", false, false⟩, ⟨"new2", false, false⟩, ⟨"act", true, false⟩]

/-- Witness for C5: in the scenario of sfetchW the poller returns the
done record on the third poll, the returned record is terminal, and
the page size grew from one to two because the first page missed it. -/
theorem wait_spec_witness :
    ((_wait sfetchW 10 ⟨"act", false, false⟩).1 = WaitOut.ret ⟨"act", true, false⟩) ∧
    ((SRec.mk "act" true false).done = true ∨ (SRec.mk "act" true false).error = true) ∧
    (PollReq.mk 1 "-updated" 2).size =
      (PollReq.mk 0 "-updated" 1).size +
        (if foundAt sfetchW (SRec.mk "act" false false).id ⟨0, "-updated", 1⟩ = true
          then 0 else 1) := by
  refine ⟨by decide, ?_, ?_⟩
  · exact (wait_spec sfetchW 10 ⟨"act", false, false⟩).1 ⟨"act", true, false⟩ (by decide)
  · exact (wait_spec sfetchW 10 ⟨"act", false, false⟩).2.2.2.2.1 0
      ⟨0, "-updated", 1⟩ ⟨1, "-updated", 2⟩ (by decide) (by decide)

/-! ## AESessionBase.authorize and claim C6

authorize (api.py lines 118-137) loops: obtain a password (from the
prompt when self.password is None, otherwise the stored credential),
call _connect, stop when _connected(); when the password was supplied
by the caller and the attempt failed, raise AEException at once. The
oracle connectOK k tells whether the k-th _connect attempt leaves the
session connected; fuel bounds the interactive prompt loop. -/

inductive AuthOut where
  | ok
  | authError
  | fuelOut
deriving DecidableEq, Repr

/-- The authorize loop; returns the outcome and the number of
_connect attempts made. -/
def authorizeAux (connectOK : Nat → Bool) (needPassword : Bool) :
    Nat → Nat → AuthOut × Nat
  | 0, attempts => (.fuelOut, attempts)
  | fuel + 1, attempts =>
    if connectOK attempts then (.ok, attempts + 1)
    else if !needPassword then (.authError, attempts + 1)
    else authorizeAux connectOK needPassword fuel (attempts + 1)

def authorize (connectOK : Nat → Bool) (needPassword : Bool) (fuel : Nat) :
    AuthOut × Nat :=
  authorizeAux connectOK needPassword fuel 0

/-- Claim C6 counterexample: with a caller-supplied password whose
first attempt is rejected but whose second attempt would succeed, the
code raises the authentication error after exactly one attempt — it
never retries the rejected credential. -/
theorem authorize_retry_cx :
    (fun k => decide (1 ≤ k)) 0 = false ∧
    (fun k => decide (1 ≤ k)) 1 = true ∧
    authorize (fun k => decide (1 ≤ k)) false 5 = (.authError, 1) := by
  decide

/-- Prompt mode retries until the first successful attempt. -/
theorem authorizeAux_prompt (connectOK : Nat → Bool) :
    ∀ fuel a k, k < fuel → connectOK (a + k) = true →
      (∀ j < k, connectOK (a + j) = false) →
      authorizeAux connectOK true fuel a = (.ok, a + k + 1) := by
  intro fuel
  induction fuel with
  | zero =>
    intro a k hk _ _
    exact absurd hk (Nat.not_lt_zero k)
  | succ fuel ih =>
    intro a k hk hok hprev
    cases k with
    | zero =>
      have hok0 : connectOK a = true := by simpa using hok
      simp [authorizeAux, hok0]
    | succ k =>
      have h0 : connectOK a = false := by simpa using hprev 0 (Nat.succ_pos k)
      simp only [authorizeAux, h0, Bool.false_eq_true, if_false, Bool.not_true]
      have hrec := ih (a + 1) k (by omega)
        (by rw [show a + 1 + k = a + (k + 1) from by omega]; exact hok)
        (fun j hj => by
          rw [show a + 1 + j = a + (j + 1) from by omega]
          exact hprev (j + 1) (by omega))
      have h2 : a + 1 + k + 1 = a + (k + 1) + 1 := by omega
      exact hrec.trans (by rw [h2])

/-- Claim C6 as amended: a caller-supplied password is attempted
exactly once — success connects, rejection raises the authentication
error immediately, with no retry — while a prompt-supplied password
is retried until the first successful attempt, unbounded by anything
but the prompt loop itself. -/
theorem authorize_spec (connectOK : Nat → Bool) (fuel k : Nat) :
    (fuel ≠ 0 → connectOK 0 = true →
      authorize connectOK false fuel = (.ok, 1) ∧
      authorize connectOK true fuel = (.ok, 1)) ∧
    (fuel ≠ 0 → connectOK 0 = false →
      authorize connectOK false fuel = (.authError, 1)) ∧
    (k < fuel → connectOK k = true → (∀ j < k, connectOK j = false) →
      authorize connectOK true fuel = (.ok, k + 1)) := by
  refine ⟨?_, ?_, ?_⟩
  · intro hf h0
    cases fuel with
    | zero => exact absurd rfl hf
    | succ fuel => exact ⟨by simp [authorize, authorizeAux, h0],
        by simp [authorize, authorizeAux, h0]⟩
  · intro hf h0
    cases fuel with
    | zero => exact absurd rfl hf
    | succ fuel => simp [authorize, authorizeAux, h0]
  · intro hk hok hprev
    have h := authorizeAux_prompt connectOK fuel 0 k hk (by simpa using hok)
      (fun j hj => by simpa using hprev j hj)
    simpa [authorize] using h

/-- Witness for C6 at a concrete prompt scenario: the password typed
on the third prompt is accepted after two rejections, and authorize
connects after exactly three attempts. -/
theorem authorize_spec_witness :
    (2 < 5 ∧ (fun k => decide (k = 2)) 2 = true ∧
      (∀ j < 2, (fun k => decide (k = 2)) j = false)) ∧
    authorize (fun k => decide (k = 2)) true 5 = (.ok, 3) := by
  refine ⟨⟨by decide, by decide, by decide⟩, ?_⟩
  exact (authorize_spec (fun k => decide (k = 2)) 5 2).2.2 (by decide) (by decide)
    (by decide)

/-! ## deployment_start state polling and claim C7

deployment_start with wait=True (api.py lines 758-764) re-fetches the
deployment record every interval while its state is initial or
starting, then raises a RuntimeError carrying the status_text of the
final record unless the state is started. refetch n is the record
returned by the n-th re-fetch. -/

structure DRec where
  id : String
  state : String
  status_text : String
deriving DecidableEq, Repr

inductive DeployOut where
  | ok (r : DRec)
  | err (msg : String)
  | fuelOut
deriving DecidableEq, Repr

/-- The terminal check of api.py lines 761-762. -/
def stopCheck (r : DRec) : DeployOut :=
  if r.state ≠ "started" then
    .err ("Error completing deployment start: " ++ r.status_text)
  else .ok r

/-- The wait loop of deployment_start (api.py lines 758-762) with
wait=True, fuel-bounded. -/
def deployWaitAux (refetch : Nat → DRec) : Nat → Nat → DRec → DeployOut
  | 0, _, r =>
    if r.state = "initial" ∨ r.state = "starting" then .fuelOut else stopCheck r
  | fuel + 1, n, r =>
    if r.state = "initial" ∨ r.state = "starting" then
      deployWaitAux refetch fuel (n + 1) (refetch n)
    else stopCheck r

def deployment_start_wait (refetch : Nat → DRec) (fuel : Nat) (r : DRec) :
    DeployOut :=
  deployWaitAux refetch fuel 0 r

theorem stopCheck_ok (r r2 : DRec) (h : stopCheck r = .ok r2) :
    r2.state = "started" := by
  by_cases hs : r.state = "started"
  · rw [stopCheck, if_neg (fun hne => hne hs)] at h
    cases h
    exact hs
  · rw [stopCheck, if_pos hs] at h
    cases h

theorem stopCheck_err (r : DRec) (m : String) (h : stopCheck r = .err m) :
    m = "Error completing deployment start: " ++ r.status_text ∧
      r.state ≠ "started" := by
  by_cases hs : r.state = "started"
  · rw [stopCheck, if_neg (fun hne => hne hs)] at h
    cases h
  · rw [stopCheck, if_pos hs] at h
    cases h
    exact ⟨rfl, hs⟩

theorem deployWait_ok (refetch : Nat → DRec) :
    ∀ fuel n r r2, deployWaitAux refetch fuel n r = .ok r2 →
      r2.state = "started" := by
  intro fuel
  induction fuel with
  | zero =>
    intro n r r2 h
    by_cases hc : r.state = "initial" ∨ r.state = "starting"
    · rw [deployWaitAux, if_pos hc] at h
      cases h
    · rw [deployWaitAux, if_neg hc] at h
      exact stopCheck_ok r r2 h
  | succ fuel ih =>
    intro n r r2 h
    by_cases hc : r.state = "initial" ∨ r.state = "starting"
    · rw [deployWaitAux, if_pos hc] at h
      exact ih (n + 1) (refetch n) r2 h
    · rw [deployWaitAux, if_neg hc] at h
      exact stopCheck_ok r r2 h

theorem deployWait_err (refetch : Nat → DRec) :
    ∀ fuel n r m, deployWaitAux refetch fuel n r = .err m →
      ∃ rf : DRec, m = "Error completing deployment start: " ++ rf.status_text ∧
        rf.state ≠ "started" ∧ ¬(rf.state = "initial" ∨ rf.state = "starting") := by
  intro fuel
  induction fuel with
  | zero =>
    intro n r m h
    by_cases hc : r.state = "initial" ∨ r.state = "starting"
    · rw [deployWaitAux, if_pos hc] at h
      cases h
    · rw [deployWaitAux, if_neg hc] at h
      obtain ⟨h1, h2⟩ := stopCheck_err r m h
      exact ⟨r, h1, h2, hc⟩
  | succ fuel ih =>
    intro n r m h
    by_cases hc : r.state = "initial" ∨ r.state = "starting"
    · rw [deployWaitAux, if_pos hc] at h
      exact ih (n + 1) (refetch n) m h
    · rw [deployWaitAux, if_neg hc] at h
      obtain ⟨h1, h2⟩ := stopCheck_err r m h
      exact ⟨r, h1, h2, hc⟩

/-- Claim C7: with wait requested, deployment_start polls while the
state is initial or starting; once polling stops it succeeds exactly
when the state is started, and any other stopping state raises the
operational error carrying the status text of the record it stopped
on. -/
theorem deployment_start_wait_spec (refetch : Nat → DRec) (fuel n : Nat)
    (r : DRec) :
    (∀ r2, deployWaitAux refetch fuel n r = .ok r2 → r2.state = "started") ∧
    (∀ m, deployWaitAux refetch fuel n r = .err m →
      ∃ rf : DRec, m = "Error completing deployment start: " ++ rf.status_text ∧
        rf.state ≠ "started" ∧ ¬(rf.state = "initial" ∨ rf.state = "starting")) ∧
    ((r.state = "initial" ∨ r.state = "starting") → fuel ≠ 0 →
      deployWaitAux refetch fuel n r =
        deployWaitAux refetch (fuel - 1) (n + 1) (refetch n)) ∧
    (¬(r.state = "initial" ∨ r.state = "starting") →
      (r.state = "started" → deployWaitAux refetch fuel n r = .ok r) ∧
      (r.state ≠ "started" → deployWaitAux refetch fuel n r =
        .err ("Error completing deployment start: " ++ r.status_text))) := by
  refine ⟨fun r2 h => deployWait_ok refetch fuel n r r2 h,
    fun m h => deployWait_err refetch fuel n r m h, ?_, ?_⟩
  · intro hc hf
    cases fuel with
    | zero => exact absurd rfl hf
    | succ fuel =>
      rw [deployWaitAux, if_pos hc]
      rfl
  · intro hc
    constructor
    · intro hs
      cases fuel with
      | zero =>
        rw [deployWaitAux, if_neg hc, stopCheck, if_neg (fun hne => hne hs)]
      | succ fuel =>
        rw [deployWaitAux, if_neg hc, stopCheck, if_neg (fun hne => hne hs)]
    · intro hs
      cases fuel with
      | zero => rw [deployWaitAux, if_neg hc, stopCheck, if_pos hs]
      | succ fuel => rw [deployWaitAux, if_neg hc, stopCheck, if_pos hs]

/-- Witness for C7 at a concrete run: a deployment that is initial,
then starting, then started is polled twice and returns the started
record; one that stops in a failed state raises the error carrying
its status text. -/
theorem deployment_start_wait_spec_witness :
    (deployment_start_wait
        (fun n => if n = 0 then ⟨"a2-1", "starting", ""⟩
          else ⟨"a2-1", "started", ""⟩) 10 ⟨"a2-1", "initial", ""⟩ =
      .ok ⟨"a2-1", "started", ""⟩) ∧
    ((DRec.mk "a2-1" "started" "").state = "started") ∧
    (¬((DRec.mk "a2-1" "failed" "oom").state = "initial" ∨
        (DRec.mk "a2-1" "failed" "oom").state = "starting") ∧
      deployWaitAux (fun _ => ⟨"a2-1", "failed", "oom"⟩) 10 0
          ⟨"a2-1", "failed", "oom"⟩ =
        .err ("Error completing deployment start: " ++ "oom")) := by
  refine ⟨by decide, ?_, by decide, ?_⟩
  · exact deployWait_ok
      (fun n => if n = 0 then ⟨"a2-1", "starting", ""⟩ else ⟨"a2-1", "started", ""⟩)
      10 0 ⟨"a2-1", "initial", ""⟩ ⟨"a2-1", "started", ""⟩ (by decide)
  · exact ((deployment_start_wait_spec
      (fun _ => ⟨"a2-1", "failed", "oom"⟩) 10 0 ⟨"a2-1", "failed", "oom"⟩).2.2.2
        (by decide)).2 (by decide)

/-! ## AEAdminSession.impersonate and claim C8

impersonate (api.py lines 991-1005) saves a copy of the session
headers, performs the impersonation POST and the OpenID GET (each of
which deposits cookies into the session jar and may, through
re-authorization, rewrite the headers), swaps the accumulated jar out
for a fresh one on success, and in a finally block clears the session
jar and restores the saved header copy on every path. post and get2
are the outcomes of the two requests, each carrying the cookies its
responses set into the jar. -/

structure AdminState where
  headers : List (String × String)
  cookies : List String
deriving DecidableEq, Repr

inductive ImpResult where
  | ok (jar : List String)
  | err (e : Nat)
deriving DecidableEq, Repr

/-- AEAdminSession.impersonate as a transformer of the admin session
state, returning the minted jar or the propagated request error. -/
def impersonate (st : AdminState) (post get2 : Except Nat (List String)) :
    ImpResult × AdminState :=
  let old := st.headers
  match post with
  | .error e => (.err e, ⟨old, []⟩)
  | .ok c1 =>
    match get2 with
    | .error e => (.err e, ⟨old, []⟩)
    | .ok c2 => (.ok (st.cookies ++ c1 ++ c2), ⟨old, []⟩)

/-- Claim C8 counterexample: an admin session whose cookie jar was
not empty before the call does not get its jar back — the finally
block clears the jar outright instead of restoring its previous
contents, so the post-call state differs from the pre-call state. -/
theorem impersonate_restore_cx :
    (impersonate ⟨[("Authorization", "Bearer t")], ["admincookie"]⟩
        (.ok ["kc1"]) (.ok ["kc2"])).2 ≠
      AdminState.mk [("Authorization", "Bearer t")] ["admincookie"] := by
  decide

/-- Claim C8 as amended: impersonate restores the admin session
headers to their pre-call copy exactly and leaves the session cookie
jar empty — so the minted user cookies never remain in the admin
session — on the success path and on both failure paths, and on
success returns the jar accumulated during the two requests. -/
theorem impersonate_spec (st : AdminState) (post get2 : Except Nat (List String)) :
    ((impersonate st post get2).2.headers = st.headers) ∧
    ((impersonate st post get2).2.cookies = []) ∧
    (∀ c1 c2, post = .ok c1 → get2 = .ok c2 →
      (impersonate st post get2).1 = .ok (st.cookies ++ c1 ++ c2)) ∧
    (∀ e, post = .error e → (impersonate st post get2).1 = .err e) ∧
    (∀ e c1, post = .ok c1 → get2 = .error e →
      (impersonate st post get2).1 = .err e) := by
  cases post with
  | error e0 =>
    refine ⟨rfl, rfl, ?_, ?_, ?_⟩
    · intro c1 c2 h _
      cases h
    · intro e he
      cases he
      rfl
    · intro e c1 h _
      cases h
  | ok c1 =>
    cases get2 with
    | error e0 =>
      refine ⟨rfl, rfl, ?_, ?_, ?_⟩
      · intro c1b c2 _ h
        cases h
      · intro e he
        cases he
      · intro e c1b hc he
        cases hc
        cases he
        rfl
    | ok c2 =>
      refine ⟨rfl, rfl, ?_, ?_, ?_⟩
      · intro c1b c2b hc hg
        cases hc
        cases hg
        rfl
      · intro e he
        cases he
      · intro e c1b _ h
        cases h

/-- Witness for C8 at concrete inputs: a successful impersonation of
a target whose two requests mint two cookies returns the accumulated
jar while the admin headers survive unchanged and the jar ends
empty. -/
theorem impersonate_spec_witness :
    ((Except.ok ["kc1"] : Except Nat (List String)) = .ok ["kc1"]) ∧
    ((impersonate ⟨[("Authorization", "Bearer t")], []⟩
        (.ok ["kc1"]) (.ok ["kc2"])).1 = .ok (([] : List String) ++ ["kc1"] ++ ["kc2"]) ∧
      (impersonate ⟨[("Authorization", "Bearer t")], []⟩
        (.ok ["kc1"]) (.ok ["kc2"])).2.headers = [("Authorization", "Bearer t")] ∧
      (impersonate ⟨[("Authorization", "Bearer t")], []⟩
        (.ok ["kc1"]) (.ok ["kc2"])).2.cookies = []) := by
  refine ⟨rfl, ?_, ?_, ?_⟩
  · exact (impersonate_spec ⟨[("Authorization", "Bearer t")], []⟩
      (.ok ["kc1"]) (.ok ["kc2"])).2.2.1 ["kc1"] ["kc2"] rfl rfl
  · exact (impersonate_spec ⟨[("Authorization", "Bearer t")], []⟩
      (.ok ["kc1"]) (.ok ["kc2"])).1
  · exact (impersonate_spec ⟨[("Authorization", "Bearer t")], []⟩
      (.ok ["kc1"]) (.ok ["kc2"])).2.1
